import Mathlib

/-!
Shallow embedding of the ResQme batch media-generation pipeline.

Source files embedded here:
- `src/resqme/pipelines/tts/elevenlabs_tts.py` (class `ElevenLabsTTS`:
  `synthesize_text`, `synthesize_csv`, `list_voices` error handling)
- `scripts/tts/tts_elevenlabs.py` (`_auto_pick_existing_voice`, `_resolve_voice_id`)
- `Generate_Data/scripts/llm/generate_with_openai.py` (`MonologueGenerator._call_gpt`)

Conventions: Python strings are Lean `String`s; pandas cells are `String`s with a
missing cell rendering as "nan" (the result of `str(NaN)`); Python exceptions are
`Except` errors; network calls are oracles passed as function parameters; the
`time.sleep` / `print` side effects are recorded as events in a trace list.
Delays are modelled as exact rationals.
-/

namespace ResQme

/-- Characters stripped by Python `str.strip()` (ASCII whitespace). -/
def pyWs (c : Char) : Bool :=
  c == ' ' || c == '\t' || c == '\n' || c == '\r' || c == '\x0b' || c == '\x0c'

/-- Model of Python `s.strip()`: drop whitespace from both ends. -/
def pyStrip (s : String) : String :=
  String.mk (List.rdropWhile pyWs (List.dropWhile pyWs s.data))

/-- Model of Python `c in s` for a single character `c`. -/
def strHasChar (s : String) (c : Char) : Bool :=
  s.data.contains c

/-- Model of Python `pat in s` (substring containment). -/
def strContainsSub (s pat : String) : Bool :=
  (List.range (s.data.length + 1)).any (fun i => pat.data.isPrefixOf (s.data.drop i))

/-- Python truthiness of an `Optional[str]`: `None` and `""` are falsy. -/
def pyTruthy (o : Option String) : Bool :=
  o.getD "" ≠ ""

/-- Python `a or b` on an `Optional[str]` left operand. -/
def pyOrStr (a : Option String) (b : Option String) : Option String :=
  if pyTruthy a then a else b

/-! ### `MonologueGenerator._call_gpt` (generate_with_openai.py, lines 138-163)

The provider call is an oracle `call : Nat → Option α` giving, for each attempt
number (1-based), either the returned message content (`some`) or a raised
exception (`none`).  The loop is

    delay = self.spec.delay_seconds
    for attempt in range(1, self.spec.max_retries + 1):
        try: ...; return content
        except Exception: if attempt < max_retries: time.sleep(delay); delay *= backoff
    return None

We record the result, the number of provider attempts made, and the list of
slept delays. -/

structure GptOutcome (α : Type) where
  result : Option α
  attempts : Nat
  sleeps : List ℚ
  deriving Repr, DecidableEq

/-- One loop iteration after another: `remaining` is `max_retries - attempt + 1`,
so `remaining = 1` exactly when `attempt = max_retries` (no sleep after the last
failed attempt). -/
def callGptLoop {α : Type} (call : Nat → Option α) (backoff : ℚ) :
    Nat → Nat → ℚ → GptOutcome α
  | _, 0, _ => ⟨none, 0, []⟩
  | attempt, remaining + 1, delay =>
    match call attempt with
    | some v => ⟨some v, 1, []⟩
    | none =>
      if remaining = 0 then ⟨none, 1, []⟩
      else
        let rest := callGptLoop call backoff (attempt + 1) remaining (delay * backoff)
        ⟨rest.result, rest.attempts + 1, delay :: rest.sleeps⟩

/-- `MonologueGenerator._call_gpt`: retry `max_retries` times with backoff. -/
def call_gpt {α : Type} (call : Nat → Option α) (max_retries : Nat)
    (initial_delay backoff : ℚ) : GptOutcome α :=
  callGptLoop call backoff 1 max_retries initial_delay

/-! ### `ElevenLabsTTS.synthesize_text` request construction (elevenlabs_tts.py, lines 67-101) -/

/-- The model-upgrade condition (line 85):
`"[" in text and "]" in text and "v3" not in model_id`. -/
def bracketUpgrade (text model_id : String) : Bool :=
  strHasChar text '[' && strHasChar text ']' && !(strContainsSub model_id "v3")

/-- The `model_id` actually put in the request payload (lines 85-87). -/
def sentModelId (text model_id : String) : String :=
  if bracketUpgrade text model_id then "eleven_v3" else model_id

/-- The JSON payload of the synthesis request (lines 90-101). -/
structure SynthPayload where
  text : String
  model_id : String
  stability : ℚ
  similarity_boost : ℚ
  style : ℚ
  use_speaker_boost : Bool
  output_format : String
  enable_ssml : Bool
  deriving Repr, DecidableEq

/-- Request building of `synthesize_text`: returns the payload together with
whether the model-upgrade message was printed (line 86). -/
def synthesize_text_request (text model_id : String)
    (stability similarity_boost style : ℚ) (speaker_boost : Bool)
    (output_format : String) (enable_ssml : Bool) : SynthPayload × Bool :=
  (⟨if enable_ssml then "<speak>" ++ text ++ "</speak>" else text,
    sentModelId text model_id,
    stability, similarity_boost, style, speaker_boost, output_format, enable_ssml⟩,
   bracketUpgrade text model_id)

/-! ### 401 error messages (elevenlabs_tts.py, lines 52-57 and 103-105) -/

/-- `self.api_key[-6:] if self.api_key else "None"`. -/
def keyTail (api_key : String) : String :=
  if api_key = "" then "None"
  else String.mk (api_key.data.drop (api_key.data.length - 6))

/-- The 401 message raised by `list_voices` (lines 53-57). -/
def msg401Voices (api_key : String) : String :=
  "ElevenLabs 401 Unauthorized. Check ELEVENLABS_API_KEY (suffix " ++ keyTail api_key ++
    "). Fix: rotate key, remove hidden whitespace, ensure env is loaded."

/-- The 401 message raised by `synthesize_text` (lines 103-105). -/
def msg401Synth (api_key : String) : String :=
  "ElevenLabs 401 Unauthorized during synthesis. Key suffix " ++ keyTail api_key ++ "."

/-- `ElevenLabsTTS.__init__` (lines 35-39): strip the key from the argument or
the environment; empty after stripping is a fatal error. -/
def mkApiKey (api_key_arg env_key : Option String) : Except String String :=
  let k := pyStrip ((pyOrStr api_key_arg (pyOrStr env_key (some ""))).getD "")
  if k = "" then Except.error "Missing ELEVENLABS_API_KEY" else Except.ok k

/-! ### `_auto_pick_existing_voice` / `_resolve_voice_id` (tts_elevenlabs.py, lines 97-128)

A row of the provider's voice table: `name` and `voice_id` are `none` when the
provider entry lacks the field (a pandas `NaN` cell).  `str(NaN)` is `"nan"`. -/

structure VoiceRow where
  name : Option String
  voice_id : Option String
  deriving Repr, DecidableEq

/-- `str(value)` on a possibly-missing cell. -/
def pyStr (o : Option String) : String := o.getD "nan"

/-- `"voice_id" in df.columns and not df["voice_id"].dropna().empty`. -/
def hasVoiceIdColumn (vs : List VoiceRow) : Bool := vs.any (fun v => v.voice_id.isSome)

/-- `"name" in df.columns`. -/
def hasNameColumn (vs : List VoiceRow) : Bool := vs.any (fun v => v.name.isSome)

/-- Sort key of `df.sort_values(by=["name", "voice_id"], na_position="last")`:
lexicographic on (name, voice_id) with missing values greatest. -/
def vKey (v : VoiceRow) : Lex (WithTop String × WithTop String) :=
  toLex ((match v.name with | some s => (s : WithTop String) | none => ⊤),
         (match v.voice_id with | some s => (s : WithTop String) | none => ⊤))

/-- The comparison relation used by the sort. -/
def voiceLe (a b : VoiceRow) : Prop := vKey a ≤ vKey b

instance : DecidableRel voiceLe := fun a b => inferInstanceAs (Decidable (vKey a ≤ vKey b))

instance : IsTotal VoiceRow voiceLe := ⟨fun a b => le_total (vKey a) (vKey b)⟩

instance : IsTrans VoiceRow voiceLe := ⟨fun _ _ _ hab hbc => le_trans hab hbc⟩

/-- `_auto_pick_existing_voice` (lines 97-112): when the table has a usable
`voice_id` column, sort by (name, voice_id) if a `name` column exists and take
the first row; without a `name` column take the first row unsorted. -/
def auto_pick_existing_voice (vs : List VoiceRow) : Option String :=
  if hasVoiceIdColumn vs then
    if hasNameColumn vs then
      match List.insertionSort voiceLe vs with
      | [] => none
      | v :: _ => some (pyStr v.voice_id)
    else
      match vs with
      | [] => none
      | v :: _ => some (pyStr v.voice_id)
  else none

/-- What the spec's words describe: the voice_id of the first entry after
sorting ascending by (name, voice_id) — unconditionally. -/
def auto_pick_spec (vs : List VoiceRow) : Option String :=
  (List.insertionSort voiceLe vs).head?.map (fun v => pyStr v.voice_id)

/-- `_resolve_voice_id` (lines 115-128): explicit id verbatim; empty sentinel
when random selection is allowed; otherwise deterministic auto-pick, failing
(`SystemExit`) when nothing was picked. -/
def resolve_voice_id (requested : Option String) (allow_random : Bool)
    (vs : List VoiceRow) : Except String String :=
  if pyTruthy requested then Except.ok (requested.getD "")
  else if allow_random then Except.ok ""
  else
    match auto_pick_existing_voice vs with
    | none => Except.error "No existing voices found"
    | some p => if p = "" then Except.error "No existing voices found" else Except.ok p

/-! ### `ElevenLabsTTS.synthesize_csv` (elevenlabs_tts.py, lines 123-200)

The CSV is a `Frame`: a header plus rows, each row an association list from
column name to the cell rendered as a string; an absent key is a `NaN` cell,
whose `str()` is `"nan"`.  The per-row random draw and the per-row provider
outcome are oracles indexed by row position.  The trace records the printed
diagnostics, the synthesis requests, and the rate-limit sleeps. -/

structure Frame where
  columns : List String
  rows : List (List (String × String))

/-- `str(row[c])`. -/
def cellStr (row : List (String × String)) (c : String) : String :=
  match row.lookup c with
  | some v => v
  | none => "nan"

/-- The fixed candidate order tried at lines 147-150. -/
def textColCandidates : List String :=
  ["text", "monologue", "prompt", "content", "generated_call"]

/-- Column inference (lines 146-150): only when `text_col is None`. -/
def inferTextCol (cols : List String) (given : Option String) : Option String :=
  match given with
  | some s => some s
  | none => textColCandidates.find? (fun c => cols.contains c)

/-- Inference plus the validity check of lines 151-152
(`if not text_col or text_col not in df.columns: raise ValueError`). -/
def resolvedTextCol (cols : List String) (given : Option String) : Option String :=
  match inferTextCol cols given with
  | none => none
  | some s => if s = "" || !cols.contains s then none else some s

/-- `f"utt_{i:04d}"`. -/
def uttId (i : Nat) : String :=
  let s := toString i
  "utt_" ++ String.mk (List.replicate (4 - s.length) '0') ++ s

/-- The (id, raw text) pairs the loop iterates over, after the id-column
synthesis of lines 154-155. -/
def mkRecords (f : Frame) (tcol id_col : String) : List (String × String) :=
  if f.columns.contains id_col then
    f.rows.map (fun r => (cellStr r id_col, cellStr r tcol))
  else
    f.rows.enum.map (fun p => (uttId p.1, cellStr p.2 tcol))

inductive Ev where
  | warnEmpty (id : String)
  | synthAttempt (id : String) (text : String) (voice : String) (model : String)
  | okSaved (id : String) (path : String)
  | errorLog (id : String) (msg : String)
  | sleep
  deriving Repr, DecidableEq

structure LedgerEntry where
  id : String
  voice_id : String
  path : String
  deriving Repr, DecidableEq

inductive BatchErr where
  | noTextColumn (available : List String)
  | noVoicesToSample
  | missingVoiceId
  deriving Repr, DecidableEq

/-- Line 177: `voice_id = fixed_voice_id or (random.choice(pool) if random_voice
else None)`, followed by the line-178 truthiness test. -/
def chooseVoice (fixed : Option String) (random_voice : Bool) (pool : List String)
    (pick : Nat → Nat) (i : Nat) : Option String :=
  let v := pyOrStr fixed
    (if random_voice then some (pool.getD (pick i % pool.length) "") else none)
  if pyTruthy v then v else none

/-- The batch loop of lines 170-198.  `prov i` is the outcome of the provider
call for row `i` (any exception raised by `synthesize_text` is an `error`).
`output_dir` is taken as already resolved (line 165), so the saved path is
`output_dir/<id>.mp3`. -/
def runRows (fixed : Option String) (random_voice : Bool) (pool : List String)
    (pick : Nat → Nat) (prov : Nat → Except String Unit)
    (outDir model : String) :
    Nat → List (String × String) → List Ev × Except BatchErr (List LedgerEntry)
  | _, [] => ([], Except.ok [])
  | i, (rid, raw) :: rest =>
    let text := pyStrip raw
    if text = "" then
      let r := runRows fixed random_voice pool pick prov outDir model (i + 1) rest
      (Ev.warnEmpty rid :: r.1, r.2)
    else
      match chooseVoice fixed random_voice pool pick i with
      | none => ([], Except.error BatchErr.missingVoiceId)
      | some v =>
        let sent := sentModelId text model
        let path := outDir ++ "/" ++ rid ++ ".mp3"
        let r := runRows fixed random_voice pool pick prov outDir model (i + 1) rest
        match prov i with
        | Except.ok _ =>
          (Ev.synthAttempt rid text v sent :: Ev.okSaved rid path :: Ev.sleep :: r.1,
           match r.2 with
           | Except.ok l => Except.ok (⟨rid, v, path⟩ :: l)
           | Except.error e => Except.error e)
        | Except.error m =>
          (Ev.synthAttempt rid text v sent :: Ev.errorLog rid m :: Ev.sleep :: r.1, r.2)

/-- `ElevenLabsTTS.synthesize_csv`.  `pool` stands for the voice ids fetched at
lines 160-161 (consulted only when `random_voice`). -/
def synthesize_csv (f : Frame) (output_dir : String) (fixed_voice_id : Option String)
    (text_col : Option String) (id_col : String) (random_voice : Bool)
    (model_id : String) (pool : List String) (pick : Nat → Nat)
    (prov : Nat → Except String Unit) :
    List Ev × Except BatchErr (List LedgerEntry) :=
  match resolvedTextCol f.columns text_col with
  | none => ([], Except.error (BatchErr.noTextColumn f.columns))
  | some tcol =>
    if random_voice && pool.isEmpty then
      ([], Except.error BatchErr.noVoicesToSample)
    else
      runRows fixed_voice_id random_voice pool pick prov output_dir model_id 0
        (mkRecords f tcol id_col)

/-- Shape of a batch trace: an empty-text row contributes a lone warning and no
sleep; an attempted row contributes a request, its outcome, and then exactly
one rate-limit sleep before anything else happens. -/
inductive Shaped : List Ev → Prop
  | nil : Shaped []
  | skip (id : String) {rest : List Ev} : Shaped rest → Shaped (Ev.warnEmpty id :: rest)
  | attemptOk (id text voice model pid path : String) {rest : List Ev} : Shaped rest →
      Shaped (Ev.synthAttempt id text voice model :: Ev.okSaved pid path :: Ev.sleep :: rest)
  | attemptErr (id text voice model eid msg : String) {rest : List Ev} : Shaped rest →
      Shaped (Ev.synthAttempt id text voice model :: Ev.errorLog eid msg :: Ev.sleep :: rest)

/-! ## Helper lemmas -/

theorem dropWhile_head_false {p : Char → Bool} {l t : List Char} {c : Char}
    (h : l.dropWhile p = c :: t) : p c = false := by
  induction l with
  | nil => simp [List.dropWhile] at h
  | cons a l ih =>
    rw [List.dropWhile_cons] at h
    by_cases hp : p a
    · rw [if_pos hp] at h
      exact ih h
    · rw [if_neg hp] at h
      cases h
      exact Bool.of_not_eq_true hp

/-- Python `strip()` is idempotent. -/
theorem pyStrip_idem (s : String) : pyStrip (pyStrip s) = pyStrip s := by
  show String.mk (List.rdropWhile pyWs (List.dropWhile pyWs
        (List.rdropWhile pyWs (List.dropWhile pyWs s.data)))) = _
  have hdrop : List.dropWhile pyWs (List.rdropWhile pyWs (List.dropWhile pyWs s.data)) =
      List.rdropWhile pyWs (List.dropWhile pyWs s.data) := by
    cases h2 : List.rdropWhile pyWs (List.dropWhile pyWs s.data) with
    | nil => rfl
    | cons c t =>
      obtain ⟨suf, hsuf⟩ := List.rdropWhile_prefix pyWs (List.dropWhile pyWs s.data)
      rw [h2] at hsuf
      have hc : pyWs c = false := dropWhile_head_false hsuf.symm
      rw [List.dropWhile_cons, if_neg (by simp [hc])]
  rw [hdrop, List.rdropWhile_idempotent]
  rfl

theorem callGptLoop_all_fail {α : Type} (call : Nat → Option α) (b : ℚ) :
    ∀ (r a : Nat) (d : ℚ), 1 ≤ r → (∀ k, a ≤ k → k < a + r → call k = none) →
      callGptLoop call b a r d =
        ⟨none, r, (List.range (r - 1)).map (fun j => d * b ^ j)⟩ := by
  intro r
  induction r with
  | zero => intro a d h; omega
  | succ r ih =>
    intro a d _ hfail
    have hca : call a = none := hfail a (le_refl a) (by omega)
    cases r with
    | zero => simp [callGptLoop, hca]
    | succ r2 =>
      have hrest := ih (a + 1) (d * b) (by omega)
        (fun k hk1 hk2 => hfail k (by omega) (by omega))
      rw [callGptLoop, hca]
      simp only [Nat.succ_ne_zero, if_false, hrest]
      refine congrArg (GptOutcome.mk none (r2 + 1 + 1)) ?_
      simp only [Nat.add_sub_cancel]
      rw [List.range_succ_eq_map, List.map_cons, List.map_map]
      refine congrArg₂ List.cons (by ring) (List.map_congr_left ?_)
      intro j _
      simp only [Function.comp_apply, pow_succ]
      ring

theorem callGptLoop_success {α : Type} (call : Nat → Option α) (b : ℚ) (v : α) :
    ∀ (j r a : Nat) (d : ℚ), j < r → (∀ k, a ≤ k → k < a + j → call k = none) →
      call (a + j) = some v →
      callGptLoop call b a r d =
        ⟨some v, j + 1, (List.range j).map (fun i => d * b ^ i)⟩ := by
  intro j
  induction j with
  | zero =>
    intro r a d hr _ hsucc
    cases r with
    | zero => omega
    | succ r2 =>
      rw [Nat.add_zero] at hsucc
      simp [callGptLoop, hsucc]
  | succ j ih =>
    intro r a d hr hfail hsucc
    cases r with
    | zero => omega
    | succ r2 =>
      have hca : call a = none := hfail a (le_refl a) (by omega)
      have hr2 : j < r2 := by omega
      have hrest := ih r2 (a + 1) (d * b) hr2
        (fun k hk1 hk2 => hfail k (by omega) (by omega))
        (by rw [show a + 1 + j = a + (j + 1) by omega]; exact hsucc)
      rw [callGptLoop, hca]
      simp only [show r2 ≠ 0 by omega, if_false, hrest]
      refine congrArg (GptOutcome.mk (some v) (j + 1 + 1)) ?_
      rw [List.range_succ_eq_map, List.map_cons, List.map_map]
      refine congrArg₂ List.cons (by ring) (List.map_congr_left ?_)
      intro i _
      simp only [Function.comp_apply, pow_succ]
      ring

/-! ## Claim theorems -/

/-- C2: the `_call_gpt` retry policy.  If the provider call raises on the first
`N` attempts and succeeds on attempt `N + 1 ≤ M` (with `max_retries = M`), the
call returns the success value after exactly `N + 1` attempts, and the delay
slept after failed attempt `k` is `initial_delay * backoff ^ (k - 1)`.  If all
`M ≥ 1` attempts raise, the call returns `none` (no exception) after exactly
`M` attempts, sleeping after each failed attempt but the last. -/
theorem call_gpt_retry_policy {α : Type} (call : Nat → Option α) (M N : Nat) (v : α)
    (d b : ℚ) :
    (N + 1 ≤ M → (∀ k, 1 ≤ k → k ≤ N → call k = none) → call (N + 1) = some v →
      call_gpt call M d b =
        ⟨some v, N + 1, (List.range N).map (fun j => d * b ^ j)⟩)
    ∧ (1 ≤ M → (∀ k, 1 ≤ k → k ≤ M → call k = none) →
      call_gpt call M d b =
        ⟨none, M, (List.range (M - 1)).map (fun j => d * b ^ j)⟩) := by
  constructor
  · intro hNM hfail hsucc
    exact callGptLoop_success call b v N M 1 d (by omega)
      (fun k hk1 hk2 => hfail k hk1 (by omega))
      (by rw [show 1 + N = N + 1 by omega]; exact hsucc)
  · intro hM hfail
    exact callGptLoop_all_fail call b M 1 d hM
      (fun k hk1 hk2 => hfail k hk1 (by omega))

/-- Witness for C2 at a concrete oracle: failure on attempt 1, success on
attempt 2, `max_retries = 3`, initial delay 2, backoff 3; and a second oracle
that always fails. -/
theorem call_gpt_retry_policy_witness :
    call_gpt (fun k => if k = 2 then some 7 else none) 3 2 3 =
      ⟨some 7, 2, [2]⟩ ∧
    call_gpt (fun _ => (none : Option Nat)) 3 2 1 = ⟨none, 3, [2, 2]⟩ := by
  constructor
  · have h := (call_gpt_retry_policy (fun k => if k = 2 then some 7 else none)
      3 1 7 2 3).1 (by omega)
      (by intro k h1 h2; have : k = 1 := by omega
          subst this; rfl)
      (by rfl)
    rw [h]
    simp [List.range_succ]
  · have h := (call_gpt_retry_policy (fun _ => (none : Option Nat)) 3 0 0 2 1).2
      (by omega) (fun k _ _ => rfl)
    rw [h]
    simp [List.range_succ]

theorem bracketUpgrade_iff (text model_id : String) :
    bracketUpgrade text model_id = true ↔
      (strHasChar text '[' = true ∧ strHasChar text ']' = true ∧
        strContainsSub model_id "v3" = false) := by
  simp [bracketUpgrade, Bool.and_eq_true, Bool.not_eq_true', and_assoc]

/-- C3: in `synthesize_text`, the model put in the request differs from the
configured `model_id` exactly when the text contains both a literal `[` and a
literal `]` and `model_id` does not already contain `"v3"`; in that case the
request carries `"eleven_v3"`, otherwise the caller's `model_id` is kept
unchanged, and the substitution message is printed exactly when the
substitution happens. -/
theorem model_upgrade_rule (text model_id : String) (st sb sty : ℚ) (spk : Bool)
    (fmt : String) (ssml : Bool) :
    ((synthesize_text_request text model_id st sb sty spk fmt ssml).1.model_id ≠ model_id ↔
      (strHasChar text '[' = true ∧ strHasChar text ']' = true ∧
        strContainsSub model_id "v3" = false))
    ∧ (strHasChar text '[' = true → strHasChar text ']' = true →
        strContainsSub model_id "v3" = false →
        (synthesize_text_request text model_id st sb sty spk fmt ssml).1.model_id =
          "eleven_v3")
    ∧ ((strHasChar text '[' = false ∨ strHasChar text ']' = false ∨
        strContainsSub model_id "v3" = true) →
        (synthesize_text_request text model_id st sb sty spk fmt ssml).1.model_id =
          model_id)
    ∧ ((synthesize_text_request text model_id st sb sty spk fmt ssml).2 = true ↔
        (synthesize_text_request text model_id st sb sty spk fmt ssml).1.model_id ≠
          model_id) := by
  have hv3 : strContainsSub "eleven_v3" "v3" = true := by decide
  by_cases hc : bracketUpgrade text model_id = true
  · obtain ⟨h1, h2, h3⟩ := (bracketUpgrade_iff text model_id).mp hc
    have hsent : (synthesize_text_request text model_id st sb sty spk fmt ssml).1.model_id =
        "eleven_v3" := by
      simp [synthesize_text_request, sentModelId, hc]
    have hne : model_id ≠ "eleven_v3" := by
      intro he
      rw [he] at h3
      exact absurd h3 (by decide)
    refine ⟨⟨fun _ => ⟨h1, h2, h3⟩, fun _ => by rw [hsent]; exact fun he => hne he.symm⟩,
      fun _ _ _ => hsent, fun habs => ?_, ?_⟩
    · rcases habs with h | h | h
      · rw [h1] at h; exact absurd h (by simp)
      · rw [h2] at h; exact absurd h (by simp)
      · rw [h3] at h; exact absurd h (by simp)
    · constructor
      · intro _
        rw [hsent]
        exact fun he => hne he.symm
      · intro _
        simp [synthesize_text_request, hc]
  · have hcf : bracketUpgrade text model_id = false := Bool.of_not_eq_true hc
    have hsent : (synthesize_text_request text model_id st sb sty spk fmt ssml).1.model_id =
        model_id := by
      simp [synthesize_text_request, sentModelId, hcf]
    refine ⟨⟨fun hne => absurd hsent hne, fun hcond => ?_⟩,
      fun ha hb hd => absurd ((bracketUpgrade_iff text model_id).mpr ⟨ha, hb, hd⟩) hc,
      fun _ => hsent, ?_⟩
    · exact absurd ((bracketUpgrade_iff text model_id).mpr hcond) hc
    · constructor
      · intro habs
        rw [show (synthesize_text_request text model_id st sb sty spk fmt ssml).2 =
            bracketUpgrade text model_id from rfl, hcf] at habs
        exact absurd habs (by simp)
      · intro hne
        exact absurd hsent hne

/-- Witness for C3 at the spec's own example texts. -/
theorem model_upgrade_rule_witness :
    (synthesize_text_request "Help [gasping] me" "gpt-basic" 0 0 0 true
      "mp3_44100_128" false).1.model_id = "eleven_v3" ∧
    (synthesize_text_request "Help me" "gpt-basic" 0 0 0 true
      "mp3_44100_128" false).1.model_id = "gpt-basic" := by
  constructor
  · exact (model_upgrade_rule "Help [gasping] me" "gpt-basic" 0 0 0 true
      "mp3_44100_128" false).2.1 (by decide) (by decide) (by decide)
  · exact (model_upgrade_rule "Help me" "gpt-basic" 0 0 0 true
      "mp3_44100_128" false).2.2.1 (Or.inl (by decide))

/-- C9 counterexample: for the six-character credential "abc123", the 401
synthesis error message contains the full credential (the last-six-characters
suffix IS the whole key), so the message does not "never contain the full
credential". -/
theorem auth_error_full_credential_exposed :
    ∃ pre post, msg401Synth "abc123" = pre ++ "abc123" ++ post :=
  ⟨"ElevenLabs 401 Unauthorized during synthesis. Key suffix ", ".", by decide⟩

/-- C9 (amended): both 401 error messages embed `keyTail`, the last (up to) six
characters of the credential, and depend on the credential only through that
suffix; the suffix is a genuine suffix of the credential of length at most 6.
Hence a credential longer than six characters never enters the message in
full, but a credential of six or fewer characters appears in full. -/
theorem auth_error_masked_suffix (k : String) (hk : k ≠ "") :
    (keyTail k).length ≤ 6
    ∧ (∃ head, k = head ++ keyTail k)
    ∧ msg401Synth k =
        "ElevenLabs 401 Unauthorized during synthesis. Key suffix " ++ keyTail k ++ "."
    ∧ msg401Voices k =
        "ElevenLabs 401 Unauthorized. Check ELEVENLABS_API_KEY (suffix " ++ keyTail k ++
          "). Fix: rotate key, remove hidden whitespace, ensure env is loaded."
    ∧ (∀ k2 : String, keyTail k2 = keyTail k →
        msg401Synth k2 = msg401Synth k ∧ msg401Voices k2 = msg401Voices k) := by
  refine ⟨?_, ?_, rfl, rfl, ?_⟩
  · rw [keyTail, if_neg hk]
    show (k.data.drop (k.data.length - 6)).length ≤ 6
    rw [List.length_drop]
    omega
  · refine ⟨String.mk (k.data.take (k.data.length - 6)), ?_⟩
    rw [keyTail, if_neg hk]
    show k = String.mk (k.data.take (k.data.length - 6) ++ k.data.drop (k.data.length - 6))
    rw [List.take_append_drop]
  · intro k2 h
    exact ⟨by rw [msg401Synth, msg401Synth, h], by rw [msg401Voices, msg401Voices, h]⟩

/-- Witness for C9 (amended) at the concrete credential "secretkey123". -/
theorem auth_error_masked_suffix_witness :
    (keyTail "secretkey123").length ≤ 6 ∧
      ∃ head, "secretkey123" = head ++ keyTail "secretkey123" := by
  have h := auth_error_masked_suffix "secretkey123" (by decide)
  exact ⟨h.1, h.2.1⟩

/-- C6 counterexample: a provider voice table with voice ids but no names.
Sorting ascending by (name, voice_id) would put the entry with id "a" first,
but `_auto_pick_existing_voice` skips the sort when there is no `name` column
and returns the first entry's id "b". -/
theorem auto_pick_counterexample :
    auto_pick_existing_voice [⟨none, some "b"⟩, ⟨none, some "a"⟩] = some "b"
    ∧ auto_pick_spec [⟨none, some "b"⟩, ⟨none, some "a"⟩] = some "a"
    ∧ auto_pick_existing_voice [⟨none, some "b"⟩, ⟨none, some "a"⟩] ≠
        auto_pick_spec [⟨none, some "b"⟩, ⟨none, some "a"⟩] := by
  have hab : ("a" : String) < "b" := by
    rw [String.lt_iff_toList_lt]
    decide
  have hba : ¬ voiceLe (VoiceRow.mk none (some "b")) (VoiceRow.mk none (some "a")) := by
    intro hle
    have hle2 : (toLex ((⊤ : WithTop String), (("b" : String) : WithTop String)) ≤
        toLex ((⊤ : WithTop String), (("a" : String) : WithTop String))) := hle
    rcases (Prod.Lex.le_iff _ _).mp hle2 with hlt | ⟨-, hle3⟩
    · exact absurd hlt (lt_irrefl _)
    · exact absurd (WithTop.coe_le_coe.mp hle3) (not_le.mpr hab)
  have h1 : auto_pick_existing_voice [⟨none, some "b"⟩, ⟨none, some "a"⟩] = some "b" := by
    decide
  have h2 : auto_pick_spec [⟨none, some "b"⟩, ⟨none, some "a"⟩] = some "a" := by
    simp only [auto_pick_spec, List.insertionSort, List.orderedInsert, if_neg hba,
      List.head?, Option.map]
    rfl
  exact ⟨h1, h2, by rw [h1, h2]; decide⟩

/-- C6 (amended): on an empty voice list (or one without a usable voice_id
column) the auto-pick returns nothing rather than fabricating an id; when a
`name` column exists the returned id is the rendering of the voice_id of an
entry of the list that is minimal for the (name, voice_id) order with missing
values last (the first entry after sorting); when no `name` column exists the
code returns the first entry of the list unsorted.  Determinism is immediate:
the auto-pick is a pure function of the list. -/
theorem auto_pick_existing_voice_characterization (vs : List VoiceRow) :
    (auto_pick_existing_voice [] = (none : Option String))
    ∧ (hasVoiceIdColumn vs = false → auto_pick_existing_voice vs = none)
    ∧ (hasVoiceIdColumn vs = true → hasNameColumn vs = true →
        ∃ v ∈ vs, auto_pick_existing_voice vs = some (pyStr v.voice_id) ∧
          ∀ w ∈ vs, voiceLe v w)
    ∧ (hasVoiceIdColumn vs = true → hasNameColumn vs = false →
        ∃ v t, vs = v :: t ∧ auto_pick_existing_voice vs = some (pyStr v.voice_id)) := by
  refine ⟨by decide, ?_, ?_, ?_⟩
  · intro h
    simp [auto_pick_existing_voice, h]
  · intro h1 h2
    have hne : vs ≠ [] := by
      intro he
      rw [he] at h1
      exact absurd h1 (by decide)
    have hperm := List.perm_insertionSort voiceLe vs
    have hsorted := List.sorted_insertionSort voiceLe vs
    cases hs : List.insertionSort voiceLe vs with
    | nil =>
      rw [hs] at hperm
      exact absurd (hperm.symm.eq_nil) hne
    | cons v rest =>
      rw [hs] at hperm hsorted
      refine ⟨v, hperm.subset (List.mem_cons_self v rest), ?_, ?_⟩
      · simp [auto_pick_existing_voice, h1, h2, hs]
      · intro w hw
        rcases List.mem_cons.mp ((hperm.mem_iff).mpr hw) with hwv | hwrest
        · subst hwv
          exact le_refl (vKey w)
        · exact List.rel_of_sorted_cons hsorted w hwrest
  · intro h1 h2
    cases vs with
    | nil => exact absurd h1 (by decide)
    | cons v t =>
      refine ⟨v, t, rfl, ?_⟩
      simp [auto_pick_existing_voice, h1, h2]

theorem runRows_nil (fixed : Option String) (rv : Bool) (pool : List String)
    (pick : Nat → Nat) (prov : Nat → Except String Unit) (o m : String) (i : Nat) :
    runRows fixed rv pool pick prov o m i [] = ([], Except.ok []) := rfl

theorem runRows_cons_empty (fixed : Option String) (rv : Bool) (pool : List String)
    (pick : Nat → Nat) (prov : Nat → Except String Unit) (o m : String) (i : Nat)
    (rid raw : String) (rest : List (String × String)) (h : pyStrip raw = "") :
    runRows fixed rv pool pick prov o m i ((rid, raw) :: rest) =
      (Ev.warnEmpty rid :: (runRows fixed rv pool pick prov o m (i + 1) rest).1,
       (runRows fixed rv pool pick prov o m (i + 1) rest).2) := by
  simp [runRows, h]

theorem runRows_cons_novoice (fixed : Option String) (rv : Bool) (pool : List String)
    (pick : Nat → Nat) (prov : Nat → Except String Unit) (o m : String) (i : Nat)
    (rid raw : String) (rest : List (String × String)) (h : ¬ pyStrip raw = "")
    (hv : chooseVoice fixed rv pool pick i = none) :
    runRows fixed rv pool pick prov o m i ((rid, raw) :: rest) =
      ([], Except.error BatchErr.missingVoiceId) := by
  simp [runRows, h, hv]

theorem runRows_cons_ok (fixed : Option String) (rv : Bool) (pool : List String)
    (pick : Nat → Nat) (prov : Nat → Except String Unit) (o m : String) (i : Nat)
    (rid raw v : String) (rest : List (String × String)) (h : ¬ pyStrip raw = "")
    (hv : chooseVoice fixed rv pool pick i = some v) (hp : prov i = Except.ok ()) :
    runRows fixed rv pool pick prov o m i ((rid, raw) :: rest) =
      (Ev.synthAttempt rid (pyStrip raw) v (sentModelId (pyStrip raw) m) ::
        Ev.okSaved rid (o ++ "/" ++ rid ++ ".mp3") :: Ev.sleep ::
          (runRows fixed rv pool pick prov o m (i + 1) rest).1,
       match (runRows fixed rv pool pick prov o m (i + 1) rest).2 with
       | Except.ok l =>
          Except.ok (LedgerEntry.mk rid v (o ++ "/" ++ rid ++ ".mp3") :: l)
       | Except.error e => Except.error e) := by
  simp [runRows, h, hv, hp]

theorem runRows_cons_err (fixed : Option String) (rv : Bool) (pool : List String)
    (pick : Nat → Nat) (prov : Nat → Except String Unit) (o m : String) (i : Nat)
    (rid raw v msg : String) (rest : List (String × String)) (h : ¬ pyStrip raw = "")
    (hv : chooseVoice fixed rv pool pick i = some v)
    (hp : prov i = Except.error msg) :
    runRows fixed rv pool pick prov o m i ((rid, raw) :: rest) =
      (Ev.synthAttempt rid (pyStrip raw) v (sentModelId (pyStrip raw) m) ::
        Ev.errorLog rid msg :: Ev.sleep ::
          (runRows fixed rv pool pick prov o m (i + 1) rest).1,
       (runRows fixed rv pool pick prov o m (i + 1) rest).2) := by
  simp [runRows, h, hv, hp]

theorem chooseVoice_fixed (fixed : Option String) (rv : Bool) (pool : List String)
    (pick : Nat → Nat) (i : Nat) (h : pyTruthy fixed = true) :
    chooseVoice fixed rv pool pick i = fixed := by
  simp [chooseVoice, pyOrStr, h]

theorem chooseVoice_none (fixed : Option String) (rv : Bool) (pool : List String)
    (pick : Nat → Nat) (i : Nat) (hfix : pyTruthy fixed = false) (hrv : rv = false) :
    chooseVoice fixed rv pool pick i = none := by
  subst hrv
  have hfg : fixed.getD "" = "" := by simpa [pyTruthy] using hfix
  simp [chooseVoice, pyOrStr, pyTruthy, hfg]

theorem chooseVoice_total (fixed : Option String) (rv : Bool) (pool : List String)
    (pick : Nat → Nat)
    (hv : pyTruthy fixed = true ∨ (rv = true ∧ pool ≠ [] ∧ ∀ s ∈ pool, s ≠ "")) :
    ∀ i, ∃ v, chooseVoice fixed rv pool pick i = some v := by
  intro i
  by_cases hfix : pyTruthy fixed = true
  · cases fixed with
    | none => exact absurd hfix (by simp [pyTruthy])
    | some s => exact ⟨s, chooseVoice_fixed _ _ _ _ _ hfix⟩
  · rcases hv with hv | ⟨hrv, hpool, hne⟩
    · exact absurd hv hfix
    · have hfix2 : pyTruthy fixed = false := Bool.of_not_eq_true hfix
      have hlen : 0 < pool.length := List.length_pos.mpr hpool
      have hlt : pick i % pool.length < pool.length := Nat.mod_lt _ hlen
      have hgd : pool.getD (pick i % pool.length) "" =
          pool.get ⟨pick i % pool.length, hlt⟩ := by
        rw [List.getD_eq_getElem?_getD, List.getElem?_eq_getElem hlt]
        rfl
      have hne2 : pool.get ⟨pick i % pool.length, hlt⟩ ≠ "" :=
        hne _ (List.get_mem _ _ _)
      have hfg : fixed.getD "" = "" := by simpa [pyTruthy] using hfix2
      refine ⟨pool.get ⟨pick i % pool.length, hlt⟩, ?_⟩
      simp [chooseVoice, pyOrStr, pyTruthy, hrv, hfg, hne2,
        List.getElem?_eq_getElem hlt, List.get_eq_getElem]
      simpa [List.get_eq_getElem] using hne2

theorem runRows_shaped (fixed : Option String) (rv : Bool) (pool : List String)
    (pick : Nat → Nat) (prov : Nat → Except String Unit) (o m : String) :
    ∀ (recs : List (String × String)) (i : Nat),
      Shaped (runRows fixed rv pool pick prov o m i recs).1 := by
  intro recs
  induction recs with
  | nil => intro i; rw [runRows_nil]; exact Shaped.nil
  | cons p rest ih =>
    intro i
    obtain ⟨rid, raw⟩ := p
    by_cases hem : pyStrip raw = ""
    · rw [runRows_cons_empty _ _ _ _ _ _ _ _ _ _ _ hem]
      exact Shaped.skip rid (ih (i + 1))
    · cases hcv : chooseVoice fixed rv pool pick i with
      | none =>
        rw [runRows_cons_novoice _ _ _ _ _ _ _ _ _ _ _ hem hcv]
        exact Shaped.nil
      | some v =>
        cases hp : prov i with
        | ok u =>
          cases u
          rw [runRows_cons_ok _ _ _ _ _ _ _ _ _ _ _ _ hem hcv hp]
          exact Shaped.attemptOk _ _ _ _ _ _ (ih (i + 1))
        | error msg =>
          rw [runRows_cons_err _ _ _ _ _ _ _ _ _ _ _ _ _ hem hcv hp]
          exact Shaped.attemptErr _ _ _ _ _ _ (ih (i + 1))

/-- Properties of the batch loop that hold without any assumption: every
synthesis request carries a non-empty trimmed text taken from a source row; the
only error the loop itself can raise is the missing-voice `ValueError`; every
ledger entry comes from a row with non-empty trimmed text and carries the
output path derived from its id. -/
theorem runRows_master (fixed : Option String) (rv : Bool) (pool : List String)
    (pick : Nat → Nat) (prov : Nat → Except String Unit) (o m : String) :
    ∀ (recs : List (String × String)) (i : Nat),
      (∀ rid t v mo,
        Ev.synthAttempt rid t v mo ∈ (runRows fixed rv pool pick prov o m i recs).1 →
          t ≠ "" ∧ pyStrip t = t ∧ ∃ p ∈ recs, p.1 = rid ∧ pyStrip p.2 = t)
      ∧ (∀ e, (runRows fixed rv pool pick prov o m i recs).2 = Except.error e →
          e = BatchErr.missingVoiceId)
      ∧ (∀ L, (runRows fixed rv pool pick prov o m i recs).2 = Except.ok L →
          ∀ en ∈ L, en.path = o ++ "/" ++ en.id ++ ".mp3" ∧
            ∃ p ∈ recs, en.id = p.1 ∧ pyStrip p.2 ≠ "") := by
  intro recs
  induction recs with
  | nil =>
    intro i
    refine ⟨?_, ?_, ?_⟩
    · intro rid t v mo h
      rw [runRows_nil] at h
      exact absurd h (List.not_mem_nil _)
    · intro e h
      rw [runRows_nil] at h
      exact Except.noConfusion h
    · intro L h en hen
      rw [runRows_nil] at h
      cases h
      exact absurd hen (List.not_mem_nil _)
  | cons p rest ih =>
    intro i
    obtain ⟨rid0, raw0⟩ := p
    obtain ⟨ihA, ihB, ihC⟩ := ih (i + 1)
    by_cases hem : pyStrip raw0 = ""
    · rw [runRows_cons_empty _ _ _ _ _ _ _ _ _ _ _ hem]
      refine ⟨?_, ?_, ?_⟩
      · intro rid t v mo h
        simp only [List.mem_cons] at h
        rcases h with he | h2
        · exact Ev.noConfusion he
        · obtain ⟨ht, hts, q, hq, hh⟩ := ihA rid t v mo h2
          exact ⟨ht, hts, q, List.mem_cons_of_mem _ hq, hh⟩
      · exact ihB
      · intro L h en hen
        obtain ⟨hp, q, hq, hh⟩ := ihC L h en hen
        exact ⟨hp, q, List.mem_cons_of_mem _ hq, hh⟩
    · cases hcv : chooseVoice fixed rv pool pick i with
      | none =>
        rw [runRows_cons_novoice _ _ _ _ _ _ _ _ _ _ _ hem hcv]
        refine ⟨?_, ?_, ?_⟩
        · intro rid t v mo h
          exact absurd h (List.not_mem_nil _)
        · intro e h
          cases h
          rfl
        · intro L h
          exact Except.noConfusion h
      | some v0 =>
        cases hp : prov i with
        | ok u =>
          cases u
          rw [runRows_cons_ok _ _ _ _ _ _ _ _ _ _ _ _ hem hcv hp]
          refine ⟨?_, ?_, ?_⟩
          · intro rid t v mo h
            simp only [List.mem_cons] at h
            rcases h with he | he | he | h2
            · obtain ⟨h1, h2, -, -⟩ := Ev.synthAttempt.inj he
              refine ⟨by rw [h2]; exact hem, by rw [h2]; exact pyStrip_idem raw0,
                (rid0, raw0), List.mem_cons_self _ _, h1.symm, h2.symm⟩
            · exact Ev.noConfusion he
            · exact Ev.noConfusion he
            · obtain ⟨ht, hts, q, hq, hh⟩ := ihA rid t v mo h2
              exact ⟨ht, hts, q, List.mem_cons_of_mem _ hq, hh⟩
          · intro e h
            revert h
            cases hout : (runRows fixed rv pool pick prov o m (i + 1) rest).2 with
            | ok l => intro h; exact Except.noConfusion h
            | error e2 =>
              intro h
              have he := Except.error.inj h
              rw [← he]
              exact ihB e2 hout
          · intro L h
            revert h
            cases hout : (runRows fixed rv pool pick prov o m (i + 1) rest).2 with
            | ok l =>
              intro h en hen
              cases h
              rcases List.mem_cons.mp hen with he | h2
              · subst he
                exact ⟨rfl, (rid0, raw0), List.mem_cons_self _ _, rfl, hem⟩
              · obtain ⟨hpp, q, hq, hh⟩ := ihC l hout en h2
                exact ⟨hpp, q, List.mem_cons_of_mem _ hq, hh⟩
            | error e2 => intro h; exact Except.noConfusion h
        | error msg =>
          rw [runRows_cons_err _ _ _ _ _ _ _ _ _ _ _ _ _ hem hcv hp]
          refine ⟨?_, ?_, ?_⟩
          · intro rid t v mo h
            simp only [List.mem_cons] at h
            rcases h with he | he | he | h2
            · obtain ⟨h1, h2, -, -⟩ := Ev.synthAttempt.inj he
              refine ⟨by rw [h2]; exact hem, by rw [h2]; exact pyStrip_idem raw0,
                (rid0, raw0), List.mem_cons_self _ _, h1.symm, h2.symm⟩
            · exact Ev.noConfusion he
            · exact Ev.noConfusion he
            · obtain ⟨ht, hts, q, hq, hh⟩ := ihA rid t v mo h2
              exact ⟨ht, hts, q, List.mem_cons_of_mem _ hq, hh⟩
          · exact ihB
          · intro L h en hen
            obtain ⟨hpp, q, hq, hh⟩ := ihC L h en hen
            exact ⟨hpp, q, List.mem_cons_of_mem _ hq, hh⟩

/-- Under a voice configuration that always yields a voice, the batch loop
never raises: it returns a ledger, warns on every empty-text row, makes exactly
the successful saves into ledger entries, and, with a fixed voice, pairs every
entry with that voice. -/
theorem runRows_complete (fixed : Option String) (rv : Bool) (pool : List String)
    (pick : Nat → Nat) (prov : Nat → Except String Unit) (o m : String)
    (hvoice : ∀ i, ∃ v, chooseVoice fixed rv pool pick i = some v) :
    ∀ (recs : List (String × String)) (i : Nat),
      ∃ L, (runRows fixed rv pool pick prov o m i recs).2 = Except.ok L
        ∧ (∀ p ∈ recs, pyStrip p.2 = "" →
            Ev.warnEmpty p.1 ∈ (runRows fixed rv pool pick prov o m i recs).1)
        ∧ (∀ p ∈ recs, pyStrip p.2 ≠ "" → ∃ v,
            Ev.synthAttempt p.1 (pyStrip p.2) v (sentModelId (pyStrip p.2) m) ∈
              (runRows fixed rv pool pick prov o m i recs).1)
        ∧ (∀ en ∈ L, Ev.okSaved en.id en.path ∈
            (runRows fixed rv pool pick prov o m i recs).1)
        ∧ (∀ rid pa, Ev.okSaved rid pa ∈ (runRows fixed rv pool pick prov o m i recs).1 →
            ∃ en ∈ L, en.id = rid ∧ en.path = pa)
        ∧ (pyTruthy fixed = true → ∀ en ∈ L, some en.voice_id = fixed) := by
  intro recs
  induction recs with
  | nil =>
    intro i
    rw [runRows_nil]
    exact ⟨[], rfl, by simp, by simp, by simp, by simp, by simp⟩
  | cons p rest ih =>
    intro i
    obtain ⟨rid0, raw0⟩ := p
    obtain ⟨L, hL, hwarn, hatt, hsave, hsave2, hfixv⟩ := ih (i + 1)
    by_cases hem : pyStrip raw0 = ""
    · rw [runRows_cons_empty _ _ _ _ _ _ _ _ _ _ _ hem]
      refine ⟨L, hL, ?_, ?_, ?_, ?_, hfixv⟩
      · intro q hq hqe
        rcases List.mem_cons.mp hq with he | hq2
        · subst he
          exact List.mem_cons_self _ _
        · exact List.mem_cons_of_mem _ (hwarn q hq2 hqe)
      · intro q hq hqe
        rcases List.mem_cons.mp hq with he | hq2
        · subst he
          exact absurd hem hqe
        · obtain ⟨v, hv⟩ := hatt q hq2 hqe
          exact ⟨v, List.mem_cons_of_mem _ hv⟩
      · intro en hen
        exact List.mem_cons_of_mem _ (hsave en hen)
      · intro rid pa h
        rcases List.mem_cons.mp h with he | h2
        · exact Ev.noConfusion he
        · exact hsave2 rid pa h2
    · obtain ⟨v0, hcv⟩ := hvoice i
      cases hp : prov i with
      | ok u =>
        cases u
        rw [runRows_cons_ok _ _ _ _ _ _ _ _ _ _ _ _ hem hcv hp, hL]
        refine ⟨LedgerEntry.mk rid0 v0 (o ++ "/" ++ rid0 ++ ".mp3") :: L, rfl,
          ?_, ?_, ?_, ?_, ?_⟩
        · intro q hq hqe
          rcases List.mem_cons.mp hq with he | hq2
          · subst he
            exact absurd hqe hem
          · exact List.mem_cons_of_mem _ (List.mem_cons_of_mem _
              (List.mem_cons_of_mem _ (hwarn q hq2 hqe)))
        · intro q hq hqe
          rcases List.mem_cons.mp hq with he | hq2
          · subst he
            exact ⟨v0, List.mem_cons_self _ _⟩
          · obtain ⟨v, hv⟩ := hatt q hq2 hqe
            exact ⟨v, List.mem_cons_of_mem _ (List.mem_cons_of_mem _
              (List.mem_cons_of_mem _ hv))⟩
        · intro en hen
          rcases List.mem_cons.mp hen with he | hen2
          · subst he
            exact List.mem_cons_of_mem _ (List.mem_cons_self _ _)
          · exact List.mem_cons_of_mem _ (List.mem_cons_of_mem _
              (List.mem_cons_of_mem _ (hsave en hen2)))
        · intro rid pa h
          rcases List.mem_cons.mp h with he | h2
          · exact Ev.noConfusion he
          · rcases List.mem_cons.mp h2 with he2 | h3
            · obtain ⟨h1, h2p⟩ := Ev.okSaved.inj he2
              exact ⟨LedgerEntry.mk rid0 v0 (o ++ "/" ++ rid0 ++ ".mp3"),
                List.mem_cons_self _ _, h1.symm, h2p.symm⟩
            · rcases List.mem_cons.mp h3 with he3 | h4
              · exact Ev.noConfusion he3
              · obtain ⟨en, hen, hh⟩ := hsave2 rid pa h4
                exact ⟨en, List.mem_cons_of_mem _ hen, hh⟩
        · intro hfx en hen
          rcases List.mem_cons.mp hen with he | hen2
          · subst he
            rw [← hcv]
            exact chooseVoice_fixed fixed rv pool pick i hfx
          · exact hfixv hfx en hen2
      | error msg =>
        rw [runRows_cons_err _ _ _ _ _ _ _ _ _ _ _ _ _ hem hcv hp]
        refine ⟨L, hL, ?_, ?_, ?_, ?_, hfixv⟩
        · intro q hq hqe
          rcases List.mem_cons.mp hq with he | hq2
          · subst he
            exact absurd hqe hem
          · exact List.mem_cons_of_mem _ (List.mem_cons_of_mem _
              (List.mem_cons_of_mem _ (hwarn q hq2 hqe)))
        · intro q hq hqe
          rcases List.mem_cons.mp hq with he | hq2
          · subst he
            exact ⟨v0, List.mem_cons_self _ _⟩
          · obtain ⟨v, hv⟩ := hatt q hq2 hqe
            exact ⟨v, List.mem_cons_of_mem _ (List.mem_cons_of_mem _
              (List.mem_cons_of_mem _ hv))⟩
        · intro en hen
          exact List.mem_cons_of_mem _ (List.mem_cons_of_mem _
            (List.mem_cons_of_mem _ (hsave en hen)))
        · intro rid pa h
          rcases List.mem_cons.mp h with he | h2
          · exact Ev.noConfusion he
          · rcases List.mem_cons.mp h2 with he2 | h3
            · exact Ev.noConfusion he2
            · rcases List.mem_cons.mp h3 with he3 | h4
              · exact Ev.noConfusion he3
              · exact hsave2 rid pa h4

/-- With no usable fixed voice and random selection disabled, the loop raises
the missing-voice error as soon as it meets a row with non-empty trimmed text,
and no synthesis request is ever made. -/
theorem runRows_novoice_aborts (fixed : Option String) (rv : Bool) (pool : List String)
    (pick : Nat → Nat) (prov : Nat → Except String Unit) (o m : String)
    (hfix : pyTruthy fixed = false) (hrv : rv = false) :
    ∀ (recs : List (String × String)) (i : Nat),
      (∀ rid t v mo,
        Ev.synthAttempt rid t v mo ∉ (runRows fixed rv pool pick prov o m i recs).1)
      ∧ ((∃ p ∈ recs, pyStrip p.2 ≠ "") →
        (runRows fixed rv pool pick prov o m i recs).2 =
          Except.error BatchErr.missingVoiceId) := by
  intro recs
  induction recs with
  | nil =>
    intro i
    rw [runRows_nil]
    exact ⟨fun _ _ _ _ h => absurd h (List.not_mem_nil _), by simp⟩
  | cons p rest ih =>
    intro i
    obtain ⟨rid0, raw0⟩ := p
    obtain ⟨ihA, ihB⟩ := ih (i + 1)
    by_cases hem : pyStrip raw0 = ""
    · rw [runRows_cons_empty _ _ _ _ _ _ _ _ _ _ _ hem]
      refine ⟨?_, ?_⟩
      · intro rid t v mo h
        rcases List.mem_cons.mp h with he | h2
        · exact Ev.noConfusion he
        · exact ihA rid t v mo h2
      · rintro ⟨q, hq, hqe⟩
        rcases List.mem_cons.mp hq with he | hq2
        · subst he
          exact absurd hem hqe
        · exact ihB ⟨q, hq2, hqe⟩
    · rw [runRows_cons_novoice _ _ _ _ _ _ _ _ _ _ _ hem
        (chooseVoice_none fixed rv pool pick i hfix hrv)]
      exact ⟨fun _ _ _ _ h => absurd h (List.not_mem_nil _), fun _ => rfl⟩

theorem synthesize_csv_run (f : Frame) (o : String) (fixed tc : Option String)
    (idc : String) (rv : Bool) (m : String) (pool : List String) (pick : Nat → Nat)
    (prov : Nat → Except String Unit) (tcol : String)
    (htc : resolvedTextCol f.columns tc = some tcol)
    (hpool : rv = true → pool ≠ []) :
    synthesize_csv f o fixed tc idc rv m pool pick prov =
      runRows fixed rv pool pick prov o m 0 (mkRecords f tcol idc) := by
  have hpe : (rv && pool.isEmpty) = false := by
    cases rv
    · rfl
    · cases hpl : pool with
      | nil => exact absurd hpl (hpool rfl)
      | cons a l => simp [hpl]
  simp [synthesize_csv, htc, hpe]

theorem synthesize_csv_noTextCol (f : Frame) (o : String) (fixed tc : Option String)
    (idc : String) (rv : Bool) (m : String) (pool : List String) (pick : Nat → Nat)
    (prov : Nat → Except String Unit)
    (htc : resolvedTextCol f.columns tc = none) :
    synthesize_csv f o fixed tc idc rv m pool pick prov =
      ([], Except.error (BatchErr.noTextColumn f.columns)) := by
  simp [synthesize_csv, htc]

theorem synthesize_csv_emptyPool (f : Frame) (o : String) (fixed tc : Option String)
    (idc : String) (rv : Bool) (m : String) (pool : List String) (pick : Nat → Nat)
    (prov : Nat → Except String Unit) (tcol : String)
    (htc : resolvedTextCol f.columns tc = some tcol) (hrv : rv = true)
    (hpl : pool = []) :
    synthesize_csv f o fixed tc idc rv m pool pick prov =
      ([], Except.error BatchErr.noVoicesToSample) := by
  subst hrv hpl
  simp [synthesize_csv, htc]

/-- C10: the trace of every batch run is `Shaped`: each row for which a
synthesis request was attempted — whether it succeeded or raised — is followed
by exactly one rate-limit sleep before the next row is processed, while a row
skipped for empty text contributes only its warning and no sleep. -/
theorem rate_limit_sleep_discipline (f : Frame) (o : String) (fixed : Option String)
    (tc : Option String) (idc : String) (rv : Bool) (m : String) (pool : List String)
    (pick : Nat → Nat) (prov : Nat → Except String Unit) :
    Shaped (synthesize_csv f o fixed tc idc rv m pool pick prov).1 := by
  rw [synthesize_csv]
  cases resolvedTextCol f.columns tc with
  | none => exact Shaped.nil
  | some tcol =>
    by_cases hp : (rv && pool.isEmpty) = true
    · simp only [hp, if_true]
      exact Shaped.nil
    · simp only [Bool.of_not_eq_true hp, if_false]
      exact runRows_shaped fixed rv pool pick prov o m (mkRecords f tcol idc) 0

/-- C1: in every batch run, every text that reaches the synthesis client is
non-empty after trimming (every request's text is a non-empty, already-trimmed
rendering of a source row); in a run whose configuration lets the loop finish,
every row with empty trimmed text is logged with a per-row warning; and every
ledger entry originates from a row with non-empty trimmed text, so skipped
rows never appear in the ledger. -/
theorem empty_rows_skipped_never_synthesized (f : Frame) (o : String)
    (fixed tc : Option String) (idc : String) (rv : Bool) (m : String)
    (pool : List String) (pick : Nat → Nat) (prov : Nat → Except String Unit) :
    (∀ rid t v mo,
      Ev.synthAttempt rid t v mo ∈ (synthesize_csv f o fixed tc idc rv m pool pick prov).1 →
        t ≠ "" ∧ pyStrip t = t)
    ∧ (∀ tcol, resolvedTextCol f.columns tc = some tcol →
        (rv = true → pool ≠ []) →
        (pyTruthy fixed = true ∨ (rv = true ∧ pool ≠ [] ∧ ∀ s ∈ pool, s ≠ "")) →
        ∀ p ∈ mkRecords f tcol idc, pyStrip p.2 = "" →
          Ev.warnEmpty p.1 ∈ (synthesize_csv f o fixed tc idc rv m pool pick prov).1)
    ∧ (∀ tcol L, resolvedTextCol f.columns tc = some tcol →
        (synthesize_csv f o fixed tc idc rv m pool pick prov).2 = Except.ok L →
        ∀ en ∈ L, ∃ p ∈ mkRecords f tcol idc, en.id = p.1 ∧ pyStrip p.2 ≠ "") := by
  refine ⟨?_, ?_, ?_⟩
  · intro rid t v mo h
    cases htc : resolvedTextCol f.columns tc with
    | none =>
      rw [synthesize_csv_noTextCol _ _ _ _ _ _ _ _ _ _ htc] at h
      exact absurd h (List.not_mem_nil _)
    | some tcol =>
      by_cases hpe : (rv && pool.isEmpty) = true
      · obtain ⟨hrv, hpl⟩ := Bool.and_eq_true_iff.mp hpe
        rw [synthesize_csv_emptyPool _ _ _ _ _ _ _ _ _ _ _ htc hrv
          (List.isEmpty_iff.mp hpl)] at h
        exact absurd h (List.not_mem_nil _)
      · have hpool : rv = true → pool ≠ [] := by
          intro hrv hpl
          exact hpe (by simp [hrv, hpl])
        rw [synthesize_csv_run _ _ _ _ _ _ _ _ _ _ _ htc hpool] at h
        obtain ⟨ht, hts, -⟩ :=
          (runRows_master fixed rv pool pick prov o m (mkRecords f tcol idc) 0).1
            rid t v mo h
        exact ⟨ht, hts⟩
  · intro tcol htc hpool hvoice p hp hpe
    rw [synthesize_csv_run _ _ _ _ _ _ _ _ _ _ _ htc hpool]
    obtain ⟨L, -, hwarn, -⟩ :=
      runRows_complete fixed rv pool pick prov o m
        (chooseVoice_total fixed rv pool pick hvoice) (mkRecords f tcol idc) 0
    exact hwarn p hp hpe
  · intro tcol L htc hok en hen
    by_cases hpe : (rv && pool.isEmpty) = true
    · obtain ⟨hrv, hpl⟩ := Bool.and_eq_true_iff.mp hpe
      rw [synthesize_csv_emptyPool _ _ _ _ _ _ _ _ _ _ _ htc hrv
        (List.isEmpty_iff.mp hpl)] at hok
      exact Except.noConfusion hok
    · have hpool : rv = true → pool ≠ [] := by
        intro hrv hpl
        exact hpe (by simp [hrv, hpl])
      rw [synthesize_csv_run _ _ _ _ _ _ _ _ _ _ _ htc hpool] at hok
      obtain ⟨-, q, hq, hh⟩ :=
        (runRows_master fixed rv pool pick prov o m (mkRecords f tcol idc) 0).2.2
          L hok en hen
      exact ⟨q, hq, hh⟩

/-- Witness for C1: a two-row batch with one empty-text row; the warning for
the empty row is in the trace of the concrete run. -/
theorem empty_rows_skipped_witness :
    Ev.warnEmpty "utt_0001" ∈
      (synthesize_csv ⟨["text"], [[("text", "Hello")], [("text", "  ")]]⟩ "/out"
        (some "V1") none "id" false "eleven_v3" [] (fun _ => 0)
        (fun _ => Except.ok ())).1 :=
  (empty_rows_skipped_never_synthesized ⟨["text"], [[("text", "Hello")], [("text", "  ")]]⟩
    "/out" (some "V1") none "id" false "eleven_v3" [] (fun _ => 0)
    (fun _ => Except.ok ())).2.1 "text" rfl (fun h => nomatch h)
    (Or.inl (by decide)) ("utt_0001", "  ") (by decide) (by decide)

/-- C4 counterexample: a batch with a processable row but neither a fixed voice
nor random selection.  The run aborts with the missing-voice error AFTER the
loop has started (the trace already contains the first row's warning), so the
errors that abort a batch are not all raised before the loop starts. -/
theorem batch_abort_inside_loop :
    synthesize_csv ⟨["text"], [[("text", " ")], [("text", "Hello")]]⟩ "/out" none none
        "id" false "m" [] (fun _ => 0) (fun _ => Except.ok ()) =
      ([Ev.warnEmpty "utt_0000"], Except.error BatchErr.missingVoiceId) := rfl

/-- C4 (amended): any failure of the synthesis call itself is caught inside the
loop — for every provider oracle, a run whose voice configuration is usable
returns a ledger normally; the only errors a batch run can raise are the
missing/un-inferable text column, the empty voice pool, and (inside the loop)
the missing-voice error; the first two abort before the loop starts, with an
empty trace; and a missing credential aborts at client construction. -/
theorem batch_error_containment (f : Frame) (o : String) (fixed tc : Option String)
    (idc : String) (rv : Bool) (m : String) (pool : List String) (pick : Nat → Nat)
    (prov : Nat → Except String Unit) :
    (∀ e, (synthesize_csv f o fixed tc idc rv m pool pick prov).2 = Except.error e →
      e = BatchErr.noTextColumn f.columns ∨ e = BatchErr.noVoicesToSample ∨
        e = BatchErr.missingVoiceId)
    ∧ ((synthesize_csv f o fixed tc idc rv m pool pick prov).2 =
          Except.error (BatchErr.noTextColumn f.columns) ∨
        (synthesize_csv f o fixed tc idc rv m pool pick prov).2 =
          Except.error BatchErr.noVoicesToSample →
        (synthesize_csv f o fixed tc idc rv m pool pick prov).1 = [])
    ∧ (∀ tcol, resolvedTextCol f.columns tc = some tcol → (rv = true → pool ≠ []) →
        (pyTruthy fixed = true ∨ (rv = true ∧ pool ≠ [] ∧ ∀ s ∈ pool, s ≠ "")) →
        ∃ L, (synthesize_csv f o fixed tc idc rv m pool pick prov).2 = Except.ok L)
    ∧ mkApiKey none none = Except.error "Missing ELEVENLABS_API_KEY" := by
  refine ⟨?_, ?_, ?_, rfl⟩
  · intro e h
    cases htc : resolvedTextCol f.columns tc with
    | none =>
      rw [synthesize_csv_noTextCol _ _ _ _ _ _ _ _ _ _ htc] at h
      exact Or.inl (Except.error.inj h).symm
    | some tcol =>
      by_cases hpe : (rv && pool.isEmpty) = true
      · obtain ⟨hrv, hpl⟩ := Bool.and_eq_true_iff.mp hpe
        rw [synthesize_csv_emptyPool _ _ _ _ _ _ _ _ _ _ _ htc hrv
          (List.isEmpty_iff.mp hpl)] at h
        exact Or.inr (Or.inl (Except.error.inj h).symm)
      · have hpool : rv = true → pool ≠ [] := by
          intro hrv hpl
          exact hpe (by simp [hrv, hpl])
        rw [synthesize_csv_run _ _ _ _ _ _ _ _ _ _ _ htc hpool] at h
        exact Or.inr (Or.inr
          ((runRows_master fixed rv pool pick prov o m (mkRecords f tcol idc) 0).2.1
            e h))
  · intro h
    cases htc : resolvedTextCol f.columns tc with
    | none =>
      rw [synthesize_csv_noTextCol _ _ _ _ _ _ _ _ _ _ htc]
    | some tcol =>
      by_cases hpe : (rv && pool.isEmpty) = true
      · obtain ⟨hrv, hpl⟩ := Bool.and_eq_true_iff.mp hpe
        rw [synthesize_csv_emptyPool _ _ _ _ _ _ _ _ _ _ _ htc hrv
          (List.isEmpty_iff.mp hpl)]
      · have hpool : rv = true → pool ≠ [] := by
          intro hrv hpl
          exact hpe (by simp [hrv, hpl])
        rw [synthesize_csv_run _ _ _ _ _ _ _ _ _ _ _ htc hpool] at h
        have hmv :=
          (runRows_master fixed rv pool pick prov o m (mkRecords f tcol idc) 0).2.1
        rcases h with h | h
        · exact absurd (hmv _ h) (by intro hc; exact BatchErr.noConfusion hc)
        · exact absurd (hmv _ h) (by intro hc; exact BatchErr.noConfusion hc)
  · intro tcol htc hpool hvoice
    rw [synthesize_csv_run _ _ _ _ _ _ _ _ _ _ _ htc hpool]
    obtain ⟨L, hL, -⟩ :=
      runRows_complete fixed rv pool pick prov o m
        (chooseVoice_total fixed rv pool pick hvoice) (mkRecords f tcol idc) 0
    exact ⟨L, hL⟩

/-- Witness for C4 (amended): a run in which every provider call raises still
returns a ledger normally. -/
theorem batch_error_containment_witness :
    ∃ L, (synthesize_csv ⟨["text"], [[("text", "A")], [("text", "B")]]⟩ "/out2"
        (some "V2") none "id" false "m" [] (fun _ => 0)
        (fun _ => Except.error "network down")).2 = Except.ok L :=
  (batch_error_containment ⟨["text"], [[("text", "A")], [("text", "B")]]⟩ "/out2"
    (some "V2") none "id" false "m" [] (fun _ => 0)
    (fun _ => Except.error "network down")).2.2.1 "text" rfl (fun h => nomatch h)
    (Or.inl (by decide))

/-- C7 counterexample: two rows with non-empty text and no voice configuration.
The claim says both rows are skipped with a log and the batch continues; the
code instead raises the missing-voice `ValueError` out of the loop, so the
batch aborts with no ledger. -/
theorem missing_voice_abort_counterexample :
    synthesize_csv ⟨["monologue"], [[("monologue", "Help me")], [("monologue", "Second")]]⟩
        "/outc7" none none "id" false "eleven_v3" [] (fun _ => 0)
        (fun _ => Except.ok ()) =
      ([], Except.error BatchErr.missingVoiceId) := rfl

/-- C7 (amended): when a row cannot be assigned a voice (no usable fixed voice,
random selection disabled), the batch run raises the missing-voice error before
any network call — no synthesis request appears in the trace — and the batch
aborts rather than continuing with the remaining rows. -/
theorem missing_voice_raises (f : Frame) (o : String) (fixed tc : Option String)
    (idc : String) (rv : Bool) (m : String) (pool : List String) (pick : Nat → Nat)
    (prov : Nat → Except String Unit) (tcol : String)
    (hfix : pyTruthy fixed = false) (hrv : rv = false)
    (htc : resolvedTextCol f.columns tc = some tcol)
    (hex : ∃ p ∈ mkRecords f tcol idc, pyStrip p.2 ≠ "") :
    (synthesize_csv f o fixed tc idc rv m pool pick prov).2 =
        Except.error BatchErr.missingVoiceId
    ∧ ∀ rid t v mo,
        Ev.synthAttempt rid t v mo ∉ (synthesize_csv f o fixed tc idc rv m pool pick prov).1 := by
  have hpool : rv = true → pool ≠ [] := by
    intro h
    rw [h] at hrv
    exact absurd hrv (by simp)
  rw [synthesize_csv_run _ _ _ _ _ _ _ _ _ _ _ htc hpool]
  obtain ⟨hA, hB⟩ :=
    runRows_novoice_aborts fixed rv pool pick prov o m hfix hrv (mkRecords f tcol idc) 0
  exact ⟨hB hex, hA⟩

/-- Witness for C7 (amended) at a concrete one-row batch. -/
theorem missing_voice_raises_witness :
    (synthesize_csv ⟨["prompt"], [[("prompt", "call now")]]⟩ "/outw" none none "id"
        false "m" [] (fun _ => 0) (fun _ => Except.ok ())).2 =
      Except.error BatchErr.missingVoiceId :=
  (missing_voice_raises ⟨["prompt"], [[("prompt", "call now")]]⟩ "/outw" none none "id"
    false "m" [] (fun _ => 0) (fun _ => Except.ok ()) "prompt" rfl rfl rfl
    ⟨("utt_0000", "call now"), by decide, by decide⟩).1

/-- C8 counterexample: a one-row batch whose single synthesis call fails.  The
run attempts the row, logs the error, and returns an EMPTY ledger: the failed
row produces no ledger entry at all, so "when some rows failed the returned
ledger is non-empty with failures distinguishable by path absence" is false —
failures are distinguishable only by being absent from the ledger. -/
theorem ledger_empty_when_all_rows_fail :
    synthesize_csv ⟨["text"], [[("text", "Hi")]]⟩ "/out" (some "V1") none "id" false
        "m" [] (fun _ => 0) (fun _ => Except.error "boom") =
      ([Ev.synthAttempt "utt_0000" "Hi" "V1" "m", Ev.errorLog "utt_0000" "boom",
        Ev.sleep], Except.ok []) := rfl

/-- C8 (amended): a batch run with a usable voice configuration attempts every
row with non-empty trimmed text — whatever the provider outcomes — and then
returns normally; the returned ledger consists exactly of the successful saves,
each entry pairing the originating row's id with the voice used (the fixed
voice when one is configured) and the output path `output_dir/<id>.mp3`; failed
rows produce no entry, so the ledger may be empty when every row failed. -/
theorem batch_ledger_characterization (f : Frame) (o : String) (fixed tc : Option String)
    (idc : String) (rv : Bool) (m : String) (pool : List String) (pick : Nat → Nat)
    (prov : Nat → Except String Unit) (tcol : String)
    (htc : resolvedTextCol f.columns tc = some tcol)
    (hpool : rv = true → pool ≠ [])
    (hvoice : pyTruthy fixed = true ∨ (rv = true ∧ pool ≠ [] ∧ ∀ s ∈ pool, s ≠ "")) :
    ∃ L, (synthesize_csv f o fixed tc idc rv m pool pick prov).2 = Except.ok L
      ∧ (∀ p ∈ mkRecords f tcol idc, pyStrip p.2 ≠ "" → ∃ v,
          Ev.synthAttempt p.1 (pyStrip p.2) v (sentModelId (pyStrip p.2) m) ∈
            (synthesize_csv f o fixed tc idc rv m pool pick prov).1)
      ∧ (∀ en ∈ L, Ev.okSaved en.id en.path ∈
            (synthesize_csv f o fixed tc idc rv m pool pick prov).1 ∧
          en.path = o ++ "/" ++ en.id ++ ".mp3" ∧
          ∃ p ∈ mkRecords f tcol idc, en.id = p.1 ∧ pyStrip p.2 ≠ "")
      ∧ (∀ rid pa, Ev.okSaved rid pa ∈
            (synthesize_csv f o fixed tc idc rv m pool pick prov).1 →
          ∃ en ∈ L, en.id = rid ∧ en.path = pa)
      ∧ (pyTruthy fixed = true → ∀ en ∈ L, some en.voice_id = fixed) := by
  rw [synthesize_csv_run _ _ _ _ _ _ _ _ _ _ _ htc hpool]
  obtain ⟨L, hL, -, hatt, hsave, hsave2, hfixv⟩ :=
    runRows_complete fixed rv pool pick prov o m
      (chooseVoice_total fixed rv pool pick hvoice) (mkRecords f tcol idc) 0
  have hC := (runRows_master fixed rv pool pick prov o m (mkRecords f tcol idc) 0).2.2
  refine ⟨L, hL, hatt, ?_, hsave2, hfixv⟩
  intro en hen
  obtain ⟨hp, q, hq, hh⟩ := hC L hL en hen
  exact ⟨hsave en hen, hp, q, hq, hh⟩

/-- Witness for C8 (amended): a concrete all-successful run. -/
theorem batch_ledger_characterization_witness :
    ∃ L, (synthesize_csv ⟨["text"], [[("text", "Hi there")]]⟩ "/out8" (some "V8") none
        "id" false "m" [] (fun _ => 0) (fun _ => Except.ok ())).2 = Except.ok L
      ∧ (∀ p ∈ mkRecords ⟨["text"], [[("text", "Hi there")]]⟩ "text" "id",
          pyStrip p.2 ≠ "" → ∃ v,
          Ev.synthAttempt p.1 (pyStrip p.2) v (sentModelId (pyStrip p.2) "m") ∈
            (synthesize_csv ⟨["text"], [[("text", "Hi there")]]⟩ "/out8" (some "V8") none
              "id" false "m" [] (fun _ => 0) (fun _ => Except.ok ())).1)
      ∧ (∀ en ∈ L, Ev.okSaved en.id en.path ∈
            (synthesize_csv ⟨["text"], [[("text", "Hi there")]]⟩ "/out8" (some "V8") none
              "id" false "m" [] (fun _ => 0) (fun _ => Except.ok ())).1 ∧
          en.path = "/out8" ++ "/" ++ en.id ++ ".mp3" ∧
          ∃ p ∈ mkRecords ⟨["text"], [[("text", "Hi there")]]⟩ "text" "id",
            en.id = p.1 ∧ pyStrip p.2 ≠ "")
      ∧ (∀ rid pa, Ev.okSaved rid pa ∈
            (synthesize_csv ⟨["text"], [[("text", "Hi there")]]⟩ "/out8" (some "V8") none
              "id" false "m" [] (fun _ => 0) (fun _ => Except.ok ())).1 →
          ∃ en ∈ L, en.id = rid ∧ en.path = pa)
      ∧ (pyTruthy (some "V8") = true → ∀ en ∈ L, some en.voice_id = some "V8") :=
  batch_ledger_characterization ⟨["text"], [[("text", "Hi there")]]⟩ "/out8" (some "V8")
    none "id" false "m" [] (fun _ => 0) (fun _ => Except.ok ()) "text" rfl
    (fun h => nomatch h) (Or.inl (by decide))

/-- C5: text-column inference probes `text`, `monologue`, `prompt`, `content`,
`generated_call` in that fixed order and uses the first present in the header:
a header with `text` always selects `text`; a header with `monologue` but not
`text` selects `monologue`; the full nested-priority characterization holds;
and when no candidate is present and none was supplied the batch fails before
any synthesis — with an empty trace — carrying the available column list. -/
theorem text_column_inference (cols : List String) (f : Frame) (o : String)
    (fixed : Option String) (idc : String) (rv : Bool) (m : String)
    (pool : List String) (pick : Nat → Nat) (prov : Nat → Except String Unit) :
    (cols.contains "text" = true → inferTextCol cols none = some "text")
    ∧ (cols.contains "text" = false → cols.contains "monologue" = true →
        inferTextCol cols none = some "monologue")
    ∧ (inferTextCol cols none =
        if cols.contains "text" = true then some "text"
        else if cols.contains "monologue" = true then some "monologue"
        else if cols.contains "prompt" = true then some "prompt"
        else if cols.contains "content" = true then some "content"
        else if cols.contains "generated_call" = true then some "generated_call"
        else none)
    ∧ ((∀ c ∈ textColCandidates, f.columns.contains c = false) →
        synthesize_csv f o fixed none idc rv m pool pick prov =
          ([], Except.error (BatchErr.noTextColumn f.columns))) := by
  have hchar : inferTextCol cols none =
      if cols.contains "text" = true then some "text"
      else if cols.contains "monologue" = true then some "monologue"
      else if cols.contains "prompt" = true then some "prompt"
      else if cols.contains "content" = true then some "content"
      else if cols.contains "generated_call" = true then some "generated_call"
      else none := by
    by_cases h1 : "text" ∈ cols <;>
      by_cases h2 : "monologue" ∈ cols <;>
        by_cases h3 : "prompt" ∈ cols <;>
          by_cases h4 : "content" ∈ cols <;>
            by_cases h5 : "generated_call" ∈ cols <;>
              simp [inferTextCol, textColCandidates, List.find?, h1, h2, h3, h4, h5]
  refine ⟨?_, ?_, hchar, ?_⟩
  · intro h1
    rw [hchar, if_pos h1]
  · intro h1 h2
    rw [hchar, if_neg (by rw [h1]; exact Bool.false_ne_true), if_pos h2]
  · intro hall
    have hfind : inferTextCol f.columns none = none := by
      rw [inferTextCol]
      exact List.find?_eq_none.mpr
        (fun c hc => by rw [hall c hc]; exact Bool.false_ne_true)
    have hres : resolvedTextCol f.columns none = none := by
      rw [resolvedTextCol, hfind]
    exact synthesize_csv_noTextCol _ _ _ _ _ _ _ _ _ _ hres

/-- Witness for C5: a header with `monologue` but without `text`. -/
theorem text_column_inference_witness :
    inferTextCol ["id", "monologue"] none = some "monologue" :=
  (text_column_inference ["id", "monologue"] ⟨[], []⟩ "" none "id" false "" []
    (fun _ => 0) (fun _ => Except.ok ())).2.1 (by decide) (by decide)

/-- Witness for C6 (amended) at a concrete named voice table. -/
theorem auto_pick_characterization_witness :
    ∃ v ∈ [VoiceRow.mk (some "B") (some "b"), VoiceRow.mk (some "A") (some "a")],
      auto_pick_existing_voice
          [VoiceRow.mk (some "B") (some "b"), VoiceRow.mk (some "A") (some "a")] =
        some (pyStr v.voice_id) ∧
      ∀ w ∈ [VoiceRow.mk (some "B") (some "b"), VoiceRow.mk (some "A") (some "a")],
        voiceLe v w :=
  (auto_pick_existing_voice_characterization
    [VoiceRow.mk (some "B") (some "b"), VoiceRow.mk (some "A") (some "a")]).2.2.1
    (by decide) (by decide)

end ResQme
